import Mathlib

/-!
Verification development for the `bizutil` resource registry
(`registry` package: `open.go`, `close.go`, `error.go`).

The registry is embedded shallowly and sequentially:

* Go `error` values built by `errors.New` / `fmt.Errorf` with `%w` verbs
  become the inductive `GoErr`; `errors.Is` becomes `errIs`.
* The `manager` struct becomes the structure `manager`, with Go maps
  modelled as association lists (`lookupKey`/`setKey`/`eraseKey` mirror
  map indexing, insertion and `delete`).
* The `opener`/`closer` callbacks are function fields; a nil `closer`
  is `Option.none`.  Callback invocations are made observable by having
  every operation additionally return the list of callback `Event`s it
  performed, so that frame claims ("never invokes the creation
  callback") are statable.
* Under the single registry-wide `sync.RWMutex` every exported
  operation is atomic, so the sequential functions below are the
  per-operation semantics; the double-checked re-resolution inside
  `group.Get` collapses because no interleaving can occur between the
  read-locked and write-locked sections of a single call.
-/

set_option autoImplicit false
set_option linter.unusedVariables false

/-- Go error values as produced by this package: `errors.New` gives a
`base` error, `fmt.Errorf` with one `%w` verb gives `wrap1`, and with two
`%w` verbs gives `wrap2` (Go 1.20 multi-error wrapping). -/
inductive GoErr : Type where
  | base (msg : String)
  | wrap1 (msg : String) (w : GoErr)
  | wrap2 (msg : String) (w1 w2 : GoErr)
deriving DecidableEq, Repr

/-- Model of `errors.Is`: an error matches a target if it is the target or the
target is reachable through its `Unwrap` chain/tree. -/
def errIs : GoErr → GoErr → Bool
  | GoErr.base m, t => decide (GoErr.base m = t)
  | GoErr.wrap1 m w, t => decide (GoErr.wrap1 m w = t) || errIs w t
  | GoErr.wrap2 m w1 w2, t => decide (GoErr.wrap2 m w1 w2 = t) || errIs w1 t || errIs w2 t

theorem errIs_self (e : GoErr) : errIs e e = true := by
  cases e <;> simp [errIs]

/-- The `ErrGroupNotFound` sentinel from `error.go`. -/
def ErrGroupNotFound : GoErr := GoErr.base "bizutil.registry: group not found"

/-- The `ErrResourceNotFound` sentinel from `error.go`. -/
def ErrResourceNotFound : GoErr := GoErr.base "bizutil.registry: resource not found"

/-- The `ErrCloseResourceFailed` sentinel from `error.go`. -/
def ErrCloseResourceFailed : GoErr := GoErr.base "bizutil.registry: close resource failed"

/-- The `ErrPingResourceFailed` sentinel from `error.go`. -/
def ErrPingResourceFailed : GoErr := GoErr.base "bizutil.registry: ping resource failed"

/-- Constructor `NewErrGroupNotFound`: wraps the `ErrGroupNotFound` sentinel with the
group name (`fmt.Errorf("group %q not found: %w", ...)`). -/
def NewErrGroupNotFound (groupName : String) : GoErr :=
  GoErr.wrap1 ("group \"" ++ groupName ++ "\" not found") ErrGroupNotFound

/-- Constructor `NewErrResourceNotFound`: wraps the `ErrResourceNotFound` sentinel
with the resource and group names. -/
def NewErrResourceNotFound (groupName resourceName : String) : GoErr :=
  GoErr.wrap1
    ("resource \"" ++ resourceName ++ "\" not found from group \"" ++ groupName ++ "\"")
    ErrResourceNotFound

/-- Constructor `NewErrCloseResourceFailed`: wraps both the `ErrCloseResourceFailed`
sentinel and the underlying teardown error
(`fmt.Errorf("...: %w: %w", ..., ErrCloseResourceFailed, err)`). -/
def NewErrCloseResourceFailed (groupName resourceName : String) (err : GoErr) : GoErr :=
  GoErr.wrap2
    ("close resource \"" ++ resourceName ++ "\" in group \"" ++ groupName ++ "\" failed")
    ErrCloseResourceFailed err

/-- Constructor `NewErrPingResourceFailed`: the format string has a single `%w` verb,
applied to the `ErrPingResourceFailed` sentinel only; the `err` parameter
is accepted but not wrapped (see `error.go` line 56). -/
def NewErrPingResourceFailed (groupName resourceName : String) (err : GoErr) : GoErr :=
  GoErr.wrap1
    ("ping resource \"" ++ resourceName ++ "\" in group \"" ++ groupName ++ "\" failed")
    ErrPingResourceFailed

/-- Claim C8: every error built by the `GroupNotFound`, `ResourceNotFound`,
`CloseResourceFailed` or `PingResourceFailed` constructor matches its
sentinel under `errors.Is`-style containment checking, and a
`CloseResourceFailed` error additionally preserves the identity of the
underlying teardown error it wraps. -/
theorem sentinel_matchable_after_wrapping (g n : String) (e : GoErr) :
    errIs (NewErrGroupNotFound g) ErrGroupNotFound = true ∧
    errIs (NewErrResourceNotFound g n) ErrResourceNotFound = true ∧
    errIs (NewErrCloseResourceFailed g n e) ErrCloseResourceFailed = true ∧
    errIs (NewErrCloseResourceFailed g n e) e = true ∧
    errIs (NewErrPingResourceFailed g n e) ErrPingResourceFailed = true := by
  refine ⟨?_, ?_, ?_, ?_, ?_⟩ <;>
    simp [NewErrGroupNotFound, NewErrResourceNotFound, NewErrCloseResourceFailed,
      NewErrPingResourceFailed, ErrGroupNotFound, ErrResourceNotFound,
      ErrCloseResourceFailed, ErrPingResourceFailed, errIs, errIs_self]

/-- Claim C9: the Ping-failure constructor matches the
`PingResourceFailed` sentinel but, unlike the Close-failure constructor,
does not wrap the underlying callback error: containment checking of the
returned error against the callback error fails (for any callback error
distinct from the sentinel and from the constructed wrapper itself). -/
theorem ping_error_does_not_wrap_cause (g n : String) (e : GoErr)
    (h1 : e ≠ ErrPingResourceFailed)
    (h2 : e ≠ NewErrPingResourceFailed g n e) :
    errIs (NewErrPingResourceFailed g n e) ErrPingResourceFailed = true ∧
    errIs (NewErrPingResourceFailed g n e) e = false ∧
    errIs (NewErrCloseResourceFailed g n e) e = true := by
  refine ⟨?_, ?_, ?_⟩
  · simp [NewErrPingResourceFailed, ErrPingResourceFailed, errIs, errIs_self]
  · simp [NewErrPingResourceFailed, errIs, ErrPingResourceFailed]
    constructor
    · intro h
      exact absurd h.symm (by simpa [NewErrPingResourceFailed] using h2)
    · intro h
      exact absurd h.symm (by simpa [ErrPingResourceFailed] using h1)
  · simp [NewErrCloseResourceFailed, errIs, errIs_self]

/-- Witness for C9 at a concrete callback error. -/
theorem ping_error_does_not_wrap_cause_witness :
    errIs (NewErrPingResourceFailed "g" "r" (GoErr.base "boom")) ErrPingResourceFailed = true ∧
    errIs (NewErrPingResourceFailed "g" "r" (GoErr.base "boom")) (GoErr.base "boom") = false ∧
    errIs (NewErrCloseResourceFailed "g" "r" (GoErr.base "boom")) (GoErr.base "boom") = true :=
  ping_error_does_not_wrap_cause "g" "r" (GoErr.base "boom") (by decide) (by decide)

/-! The registry state (`open.go`). -/

/-- Record type `connection`: the per-name resource record — configuration, the
materialized value (the zero value `default` until materialized, as in
Go) and the readiness flag. -/
structure connection (C T : Type) : Type where
  cfg : C
  val : T
  ready : Bool
deriving Repr, DecidableEq

/-- Map indexing `m[k]` for a Go map modelled as an association list. -/
def lookupKey {β : Type} (k : String) : List (String × β) → Option β
  | [] => none
  | (k', v) :: rest => if k' = k then some v else lookupKey k rest

/-- Map assignment `m[k] = v`. -/
def setKey {β : Type} (k : String) (v : β) : List (String × β) → List (String × β)
  | [] => [(k, v)]
  | (k', v') :: rest => if k' = k then (k, v) :: rest else (k', v') :: setKey k v rest

/-- Map deletion `delete(m, k)`. -/
def eraseKey {β : Type} (k : String) : List (String × β) → List (String × β)
  | [] => []
  | (k', v') :: rest => if k' = k then rest else (k', v') :: eraseKey k rest

/-- State type `manager`: all groups (outer key the group name, inner key the
resource name), the `Opener` and the possibly-nil `Closer`.  The opener
returns `(T, error)` as `Except GoErr T`; the closer returns `error` as
`Option GoErr` (`none` = nil). -/
structure manager (Ctx C T : Type) : Type where
  groups : List (String × List (String × connection C T))
  opener : Ctx → C → Except GoErr T
  closer : Option (Ctx → T → Option GoErr)

/-- Observable callback invocations performed by an operation. -/
inductive Event (Ctx C T : Type) : Type where
  | openCall (ctx : Ctx) (cfg : C)
  | closeCall (ctx : Ctx) (v : T)
deriving DecidableEq

/-- Operation `manager.Group`: returns a handle to the named group (the handle is
just the name, since all state lives in the manager) or
`ErrGroupNotFound`. -/
def manager.Group {Ctx C T : Type} (m : manager Ctx C T) (name : String) :
    Except GoErr String :=
  match lookupKey name m.groups with
  | none => Except.error (NewErrGroupNotFound name)
  | some _ => Except.ok name

/-- Operation `manager.AddGroup`: creates an empty group if absent; returns whether
the group already existed. -/
def manager.AddGroup {Ctx C T : Type} (m : manager Ctx C T) (name : String) :
    Bool × manager Ctx C T :=
  match lookupKey name m.groups with
  | some _ => (true, m)
  | none => (false, manager.mk (setKey name [] m.groups) m.opener m.closer)

/-- Operation `manager.ListGroupNames`. -/
def manager.ListGroupNames {Ctx C T : Type} (m : manager Ctx C T) : List String :=
  m.groups.map Prod.fst

/-- The inner loop shared by `manager.Close` and `group.Close`: walk the
records of one group, skip unready records and a nil closer, invoke the
closer on ready records and collect a `NewErrCloseResourceFailed` per
failure.  Returns the collected errors and the closer invocations. -/
def closeConns {Ctx C T : Type} (closer : Option (Ctx → T → Option GoErr)) (ctx : Ctx)
    (groupName : String) :
    List (String × connection C T) → List GoErr × List (Event Ctx C T)
  | [] => ([], [])
  | (name, conn) :: rest =>
    let tail := closeConns closer ctx groupName rest
    if conn.ready then
      match closer with
      | none => tail
      | some cl =>
        match cl ctx conn.val with
        | some e =>
          (NewErrCloseResourceFailed groupName name e :: tail.1,
           Event.closeCall ctx conn.val :: tail.2)
        | none => (tail.1, Event.closeCall ctx conn.val :: tail.2)
    else tail

/-- The outer loop of `manager.Close`: all groups in turn. -/
def closeGroups {Ctx C T : Type} (closer : Option (Ctx → T → Option GoErr)) (ctx : Ctx) :
    List (String × List (String × connection C T)) → List GoErr × List (Event Ctx C T)
  | [] => ([], [])
  | (gname, gm) :: rest =>
    let here := closeConns closer ctx gname gm
    let tail := closeGroups closer ctx rest
    (here.1 ++ tail.1, here.2 ++ tail.2)

/-- Operation `manager.Close`: closes every ready resource in every group, then
resets the manager to the empty-groups state. -/
def manager.Close {Ctx C T : Type} (ctx : Ctx) (m : manager Ctx C T) :
    List GoErr × manager Ctx C T × List (Event Ctx C T) :=
  let p := closeGroups m.closer ctx m.groups
  (p.1, manager.mk [] m.opener m.closer, p.2)

/-- Operation `group.Get` (`open.go` 202–253): resolve the group, resolve the
record, return the cached value when ready, otherwise invoke the opener
and, on success, store the value and set `ready`.  The double-checked
write-locked re-resolution of the Go code collapses here because each
operation is atomic under the single registry lock. -/
def group.Get {Ctx C T : Type} (ctx : Ctx) (m : manager Ctx C T) (gname name : String) :
    Except GoErr T × manager Ctx C T × List (Event Ctx C T) :=
  match lookupKey gname m.groups with
  | none => (Except.error (NewErrGroupNotFound gname), m, [])
  | some groupMap =>
    match lookupKey name groupMap with
    | none => (Except.error (NewErrResourceNotFound gname name), m, [])
    | some conn =>
      if conn.ready then (Except.ok conn.val, m, [])
      else
        match m.opener ctx conn.cfg with
        | Except.error e => (Except.error e, m, [Event.openCall ctx conn.cfg])
        | Except.ok v =>
          (Except.ok v,
           manager.mk
             (setKey gname (setKey name (connection.mk conn.cfg v true) groupMap) m.groups)
             m.opener m.closer,
           [Event.openCall ctx conn.cfg])

/-- Operation `group.Register` (`open.go` 278–294): re-create the group map if it
is gone, refuse to overwrite an existing name (returning `isNew=false`),
otherwise insert a fresh unready record holding the configuration.  The
error result is always nil.  Requires `Inhabited T` for the record's
zero value, as in Go. -/
def group.Register {Ctx C T : Type} [Inhabited T] (ctx : Ctx) (m : manager Ctx C T)
    (gname name : String) (cfg : C) :
    (Bool × Option GoErr) × manager Ctx C T × List (Event Ctx C T) :=
  match lookupKey gname m.groups with
  | some groupMap =>
    match lookupKey name groupMap with
    | some _ => ((false, none), m, [])
    | none =>
      ((true, none),
       manager.mk
         (setKey gname (setKey name (connection.mk cfg default false) groupMap) m.groups)
         m.opener m.closer,
       [])
  | none =>
    ((true, none),
     manager.mk (setKey gname [(name, connection.mk cfg default false)] m.groups)
       m.opener m.closer,
     [])

/-- Operation `group.Unregister` (`open.go` 304–324): fail with `GroupNotFound` /
`ResourceNotFound` when group or record is absent; when the record is
ready and a closer is present, invoke the closer and discard its result;
remove the record unconditionally. -/
def group.Unregister {Ctx C T : Type} (ctx : Ctx) (m : manager Ctx C T)
    (gname name : String) :
    Option GoErr × manager Ctx C T × List (Event Ctx C T) :=
  match lookupKey gname m.groups with
  | none => (some (NewErrGroupNotFound gname), m, [])
  | some groupMap =>
    match lookupKey name groupMap with
    | none => (some (NewErrResourceNotFound gname name), m, [])
    | some conn =>
      let evs : List (Event Ctx C T) :=
        if conn.ready then
          match m.closer with
          | some _ => [Event.closeCall ctx conn.val]
          | none => []
        else []
      (none, manager.mk (setKey gname (eraseKey name groupMap) m.groups) m.opener m.closer,
       evs)

/-- Operation `group.Close` (`open.go` 354–379): nothing to do if the group is
already gone; otherwise close the ready records of this group (same loop
as `manager.Close`) and delete the group. -/
def group.Close {Ctx C T : Type} (ctx : Ctx) (m : manager Ctx C T) (gname : String) :
    List GoErr × manager Ctx C T × List (Event Ctx C T) :=
  match lookupKey gname m.groups with
  | none => ([], m, [])
  | some groupMap =>
    let p := closeConns m.closer ctx gname groupMap
    (p.1, manager.mk (eraseKey gname m.groups) m.opener m.closer, p.2)

/-- Modelled from the spec: the implementation of `Group.Ping` is not
among the provided sources (only its interface declaration and its
tests are).  Per §4.2 of the spec it resolves the group
(`GroupNotFound` if gone) and the record (`ResourceNotFound` if never
registered), always invokes the creation callback regardless of
readiness, stores nothing, and on callback failure fails with a wrapped
`PingResourceFailed` condition. -/
def group.Ping {Ctx C T : Type} (ctx : Ctx) (m : manager Ctx C T) (gname name : String) :
    Option GoErr × manager Ctx C T × List (Event Ctx C T) :=
  match lookupKey gname m.groups with
  | none => (some (NewErrGroupNotFound gname), m, [])
  | some groupMap =>
    match lookupKey name groupMap with
    | none => (some (NewErrResourceNotFound gname name), m, [])
    | some conn =>
      match m.opener ctx conn.cfg with
      | Except.error e =>
        (some (NewErrPingResourceFailed gname name e), m, [Event.openCall ctx conn.cfg])
      | Except.ok _ => (none, m, [Event.openCall ctx conn.cfg])

/-- The ready records of one group map, in order: the records whose
teardown `manager.Close` / `group.Close` must perform. -/
def readyEntries {C T : Type} (gm : List (String × connection C T)) :
    List (String × connection C T) :=
  gm.filter (fun p => p.2.ready)

/-! Association-list lemmas. -/

theorem lookupKey_setKey_self {β : Type} (k : String) (v : β) (l : List (String × β)) :
    lookupKey k (setKey k v l) = some v := by
  induction l with
  | nil => simp [setKey, lookupKey]
  | cons p rest ih =>
    obtain ⟨k', v'⟩ := p
    by_cases h : k' = k
    · simp [setKey, lookupKey, h]
    · simp [setKey, lookupKey, h, ih]

theorem lookupKey_setKey_ne {β : Type} {k k' : String} (v : β) (l : List (String × β))
    (h : k' ≠ k) : lookupKey k' (setKey k v l) = lookupKey k' l := by
  induction l with
  | nil => simp [setKey, lookupKey, Ne.symm h]
  | cons p rest ih =>
    obtain ⟨k₀, v₀⟩ := p
    by_cases h₀ : k₀ = k
    · subst h₀
      simp [setKey, lookupKey, Ne.symm h]
    · simp [setKey, lookupKey, h₀, ih]

theorem lookupKey_eraseKey_ne {β : Type} {k k' : String} (l : List (String × β))
    (h : k' ≠ k) : lookupKey k' (eraseKey k l) = lookupKey k' l := by
  induction l with
  | nil => simp [eraseKey]
  | cons p rest ih =>
    obtain ⟨k₀, v₀⟩ := p
    by_cases h₀ : k₀ = k
    · subst h₀
      simp [eraseKey, lookupKey, Ne.symm h]
    · simp [eraseKey, lookupKey, h₀, ih]

theorem lookupKey_eq_none_of_not_mem {β : Type} {k : String} {l : List (String × β)}
    (h : k ∉ l.map Prod.fst) : lookupKey k l = none := by
  induction l with
  | nil => simp [lookupKey]
  | cons p rest ih =>
    obtain ⟨k₀, v₀⟩ := p
    simp only [List.map_cons, List.mem_cons, not_or] at h
    simp [lookupKey, Ne.symm h.1, ih h.2]

theorem lookupKey_eraseKey_self {β : Type} {k : String} {l : List (String × β)}
    (hnd : (l.map Prod.fst).Nodup) : lookupKey k (eraseKey k l) = none := by
  induction l with
  | nil => simp [eraseKey, lookupKey]
  | cons p rest ih =>
    obtain ⟨k₀, v₀⟩ := p
    simp only [List.map_cons, List.nodup_cons] at hnd
    by_cases h₀ : k₀ = k
    · subst h₀
      simpa [eraseKey] using lookupKey_eq_none_of_not_mem hnd.1
    · simp [eraseKey, lookupKey, h₀, ih hnd.2]

/-! Characterizations of the teardown loops. -/

theorem closeConns_nil_closer {Ctx C T : Type} (ctx : Ctx) (gname : String)
    (gm : List (String × connection C T)) :
    closeConns none ctx gname gm = ([], []) := by
  induction gm with
  | nil => simp [closeConns]
  | cons p rest ih =>
    obtain ⟨n, c⟩ := p
    simp [closeConns, ih]

theorem closeConns_some_closer {Ctx C T : Type} (cl : Ctx → T → Option GoErr) (ctx : Ctx)
    (gname : String) (gm : List (String × connection C T)) :
    closeConns (some cl) ctx gname gm =
      ((readyEntries gm).filterMap
        (fun p => Option.map (NewErrCloseResourceFailed gname p.1) (cl ctx p.2.val)),
       (readyEntries gm).map (fun p => Event.closeCall ctx p.2.val)) := by
  induction gm with
  | nil => simp [closeConns, readyEntries]
  | cons p rest ih =>
    obtain ⟨n, c⟩ := p
    by_cases hr : c.ready
    · cases he : cl ctx c.val with
      | none => simp [closeConns, readyEntries, hr, he, ih,
          readyEntries, List.filter_cons, List.filterMap_cons]
      | some e => simp [closeConns, readyEntries, hr, he, ih,
          List.filter_cons, List.filterMap_cons]
    · simp [closeConns, readyEntries, hr, ih, List.filter_cons]

theorem closeGroups_nil_closer {Ctx C T : Type} (ctx : Ctx)
    (gl : List (String × List (String × connection C T))) :
    closeGroups none ctx gl = ([], []) := by
  induction gl with
  | nil => simp [closeGroups]
  | cons p rest ih =>
    obtain ⟨gn, gm⟩ := p
    simp [closeGroups, closeConns_nil_closer, ih]

theorem closeGroups_some_closer {Ctx C T : Type} (cl : Ctx → T → Option GoErr) (ctx : Ctx)
    (gl : List (String × List (String × connection C T))) :
    closeGroups (some cl) ctx gl =
      ((gl.map (fun g => (readyEntries g.2).filterMap
          (fun p => Option.map (NewErrCloseResourceFailed g.1 p.1) (cl ctx p.2.val)))).flatten,
       (gl.map (fun g =>
          (readyEntries g.2).map (fun p => Event.closeCall ctx p.2.val))).flatten) := by
  induction gl with
  | nil => simp [closeGroups]
  | cons p rest ih =>
    obtain ⟨gn, gm⟩ := p
    simp [closeGroups, closeConns_some_closer, ih]

/-! The claims. -/

/-- Claim C1: for a group present in the registry and a resource name
registered in it, `Get` returns the cached value with no callback
invocation when the record is ready; when unready it invokes the opener
once and, on success, stores the value and marks the record ready (so a
further `Get` is served from cache with no callback), and on failure
returns the opener's error unchanged leaving the state untouched, so
that a subsequent `Get` invokes the opener again. -/
theorem get_lazy_lifecycle {Ctx C T : Type} (ctx : Ctx) (m : manager Ctx C T)
    (gname name : String) (groupMap : List (String × connection C T))
    (conn : connection C T)
    (hg : lookupKey gname m.groups = some groupMap)
    (hc : lookupKey name groupMap = some conn) :
    (conn.ready = true → group.Get ctx m gname name = (Except.ok conn.val, m, [])) ∧
    (conn.ready = false →
      (∀ e, m.opener ctx conn.cfg = Except.error e →
        group.Get ctx m gname name = (Except.error e, m, [Event.openCall ctx conn.cfg]) ∧
        (group.Get ctx (group.Get ctx m gname name).2.1 gname name).2.2 =
          [Event.openCall ctx conn.cfg]) ∧
      (∀ v, m.opener ctx conn.cfg = Except.ok v →
        (group.Get ctx m gname name).1 = Except.ok v ∧
        (group.Get ctx m gname name).2.2 = [Event.openCall ctx conn.cfg] ∧
        (∃ gm', lookupKey gname (group.Get ctx m gname name).2.1.groups = some gm' ∧
          lookupKey name gm' = some (connection.mk conn.cfg v true)) ∧
        group.Get ctx (group.Get ctx m gname name).2.1 gname name =
          (Except.ok v, (group.Get ctx m gname name).2.1, []))) := by
  refine ⟨fun hr => ?_, fun hr => ⟨fun e he => ?_, fun v hv => ?_⟩⟩
  · simp [group.Get, hg, hc, hr]
  · have h1 : group.Get ctx m gname name =
        (Except.error e, m, [Event.openCall ctx conn.cfg]) := by
      simp [group.Get, hg, hc, hr, he]
    refine ⟨h1, ?_⟩
    rw [h1]
    simp [group.Get, hg, hc, hr, he]
  · have h1 : group.Get ctx m gname name =
        (Except.ok v,
         manager.mk
           (setKey gname (setKey name (connection.mk conn.cfg v true) groupMap) m.groups)
           m.opener m.closer,
         [Event.openCall ctx conn.cfg]) := by
      simp [group.Get, hg, hc, hr, hv]
    refine ⟨by rw [h1], by rw [h1], ?_, ?_⟩
    · rw [h1]
      exact ⟨setKey name (connection.mk conn.cfg v true) groupMap,
        lookupKey_setKey_self gname _ m.groups,
        lookupKey_setKey_self name _ groupMap⟩
    · rw [h1]
      simp [group.Get, lookupKey_setKey_self]

/-- Witness for C1 on a ready record: `Get` serves the cache with no
callback invocation. -/
theorem get_lazy_lifecycle_witness :
    group.Get () (manager.mk [("g", [("r", connection.mk 7 42 true)])]
        (fun _ c => Except.ok (c + 1)) none) "g" "r" =
      (Except.ok 42,
       manager.mk [("g", [("r", connection.mk 7 42 true)])]
         (fun _ c => Except.ok (c + 1)) none, []) :=
  (get_lazy_lifecycle ()
    (manager.mk [("g", [("r", connection.mk 7 42 true)])]
      (fun _ c => Except.ok (c + 1)) none) "g" "r"
    [("r", connection.mk 7 42 true)] (connection.mk 7 42 true) rfl rfl).1 rfl

/-- Claim C3: `Register` inserts a fresh unready record and reports
"new" exactly when the name is absent; an existing name is left
untouched (state unchanged, new configuration discarded) with "not
new"; a removed group is re-created; and no callback is ever invoked. -/
theorem register_insert_or_noop {Ctx C T : Type} [Inhabited T] (ctx : Ctx)
    (m : manager Ctx C T) (gname name : String) (cfg : C) :
    (group.Register ctx m gname name cfg).2.2 = [] ∧
    (∀ groupMap conn, lookupKey gname m.groups = some groupMap →
      lookupKey name groupMap = some conn →
      group.Register ctx m gname name cfg = ((false, none), m, [])) ∧
    (∀ groupMap, lookupKey gname m.groups = some groupMap →
      lookupKey name groupMap = none →
      (group.Register ctx m gname name cfg).1 = (true, none) ∧
      ∃ gm', lookupKey gname (group.Register ctx m gname name cfg).2.1.groups = some gm' ∧
        lookupKey name gm' = some (connection.mk cfg default false)) ∧
    (lookupKey gname m.groups = none →
      (group.Register ctx m gname name cfg).1 = (true, none) ∧
      lookupKey gname (group.Register ctx m gname name cfg).2.1.groups =
        some [(name, connection.mk cfg default false)]) := by
  refine ⟨?_, fun groupMap conn hg hc => ?_, fun groupMap hg hc => ?_, fun hg => ?_⟩
  · cases hg : lookupKey gname m.groups with
    | none => simp [group.Register, hg]
    | some gm =>
      cases hc : lookupKey name gm with
      | none => simp [group.Register, hg, hc]
      | some c => simp [group.Register, hg, hc]
  · simp [group.Register, hg, hc]
  · have h1 : (group.Register ctx m gname name cfg).2.1.groups =
        setKey gname (setKey name (connection.mk cfg default false) groupMap) m.groups := by
      simp [group.Register, hg, hc]
    refine ⟨by simp [group.Register, hg, hc], ?_⟩
    rw [h1]
    exact ⟨setKey name (connection.mk cfg default false) groupMap,
      lookupKey_setKey_self gname _ m.groups,
      lookupKey_setKey_self name _ groupMap⟩
  · have h1 : (group.Register ctx m gname name cfg).2.1.groups =
        setKey gname [(name, connection.mk cfg default false)] m.groups := by
      simp [group.Register, hg]
    refine ⟨by simp [group.Register, hg], ?_⟩
    rw [h1]
    exact lookupKey_setKey_self gname _ m.groups

/-- Witness for C3 on an already-present name: re-registration with a
different configuration changes nothing and reports "not new". -/
theorem register_insert_or_noop_witness :
    group.Register () (manager.mk [("g", [("r", connection.mk 7 42 true)])]
        (fun _ c => Except.ok (c + 1)) none) "g" "r" (99 : Nat) =
      ((false, none),
       manager.mk [("g", [("r", connection.mk 7 42 true)])]
         (fun _ c => Except.ok (c + 1)) none, []) :=
  (register_insert_or_noop ()
    (manager.mk [("g", [("r", connection.mk 7 42 true)])]
      (fun _ c => Except.ok (c + 1)) none) "g" "r" 99).2.1
    [("r", connection.mk 7 42 true)] (connection.mk 7 42 true) rfl rfl

/-- Claim C10: `Register` can never fail — its error result is nil on
every path, and afterwards the group always exists (an absent group is
re-created on the spot). -/
theorem register_never_fails {Ctx C T : Type} [Inhabited T] (ctx : Ctx)
    (m : manager Ctx C T) (gname name : String) (cfg : C) :
    (group.Register ctx m gname name cfg).1.2 = none ∧
    (lookupKey gname (group.Register ctx m gname name cfg).2.1.groups).isSome = true := by
  cases hg : lookupKey gname m.groups with
  | none => simp [group.Register, hg, lookupKey_setKey_self]
  | some gm =>
    cases hc : lookupKey name gm with
    | none => simp [group.Register, hg, hc, lookupKey_setKey_self]
    | some c => simp [group.Register, hg, hc]

/-! Concrete registries used by the witnesses. -/

/-- An opener that always fails with the error "boom". -/
def boomOpener : Unit → Nat → Except GoErr Nat := fun _ _ => Except.error (GoErr.base "boom")

/-- An opener that always succeeds. -/
def okOpener : Unit → Nat → Except GoErr Nat := fun _ c => Except.ok (c + 1)

/-- A teardown callback that always succeeds. -/
def okCloser : Unit → Nat → Option GoErr := fun _ _ => none

/-- A registry with one unready record "r" in group "g" and a failing
opener. -/
def mBoom : manager Unit Nat Nat :=
  manager.mk [("g", [("r", connection.mk 7 0 false)])] boomOpener (some okCloser)

/-- A registry with one ready record "r" (value 42) in group "g" and a
ready record "s" (value 43) in sibling group "h". -/
def mTwo : manager Unit Nat Nat :=
  manager.mk
    [("g", [("r", connection.mk 7 42 true)]), ("h", [("s", connection.mk 8 43 true)])]
    okOpener (some okCloser)

/-- A registry with no groups at all. -/
def mEmpty : manager Unit Nat Nat := manager.mk [] okOpener none

/-- Claim C2: for a registered name, `Ping` invokes the creation
callback and discards the result — the registry state (ready flag and
cached value included) after `Ping` is exactly the state before, a
repeated `Ping` re-invokes the callback, and a later `Get` behaves as
if `Ping` had never run; a callback failure surfaces as an error
matching the `PingResourceFailed` sentinel. -/
theorem ping_probe_frame {Ctx C T : Type} (ctx : Ctx) (m : manager Ctx C T)
    (gname name : String) (groupMap : List (String × connection C T))
    (conn : connection C T)
    (hg : lookupKey gname m.groups = some groupMap)
    (hc : lookupKey name groupMap = some conn) :
    (group.Ping ctx m gname name).2.1 = m ∧
    (group.Ping ctx m gname name).2.2 = [Event.openCall ctx conn.cfg] ∧
    (∀ e, m.opener ctx conn.cfg = Except.error e →
      ∃ err, (group.Ping ctx m gname name).1 = some err ∧
        errIs err ErrPingResourceFailed = true) ∧
    (∀ v, m.opener ctx conn.cfg = Except.ok v → (group.Ping ctx m gname name).1 = none) ∧
    (group.Ping ctx (group.Ping ctx m gname name).2.1 gname name).2.2 =
      [Event.openCall ctx conn.cfg] ∧
    group.Get ctx (group.Ping ctx m gname name).2.1 gname name =
      group.Get ctx m gname name := by
  cases ho : m.opener ctx conn.cfg with
  | error e =>
    have hp : group.Ping ctx m gname name =
        (some (NewErrPingResourceFailed gname name e), m, [Event.openCall ctx conn.cfg]) := by
      simp [group.Ping, hg, hc, ho]
    refine ⟨by rw [hp], by rw [hp], fun e' he' => ?_, fun v hv => ?_, ?_, ?_⟩
    · refine ⟨NewErrPingResourceFailed gname name e, by rw [hp], ?_⟩
      simp [NewErrPingResourceFailed, ErrPingResourceFailed, errIs, errIs_self]
    · exact absurd hv (by simp)
    · rw [hp]
      simp [group.Ping, hg, hc, ho]
    · rw [hp]
  | ok v =>
    have hp : group.Ping ctx m gname name = (none, m, [Event.openCall ctx conn.cfg]) := by
      simp [group.Ping, hg, hc, ho]
    refine ⟨by rw [hp], by rw [hp], fun e' he' => ?_, fun v' hv' => by rw [hp], ?_, ?_⟩
    · exact absurd he' (by simp)
    · rw [hp]
      simp [group.Ping, hg, hc, ho]
    · rw [hp]

/-- Witness for C2: pinging the unready record of `mBoom` leaves the
registry untouched and reports a `PingResourceFailed`-matching error. -/
theorem ping_probe_frame_witness :
    (group.Ping () mBoom "g" "r").2.1 = mBoom ∧
    (group.Ping () mBoom "g" "r").2.2 = [Event.openCall () 7] ∧
    (∃ err, (group.Ping () mBoom "g" "r").1 = some err ∧
      errIs err ErrPingResourceFailed = true) :=
  have h := ping_probe_frame () mBoom "g" "r"
    [("r", connection.mk 7 0 false)] (connection.mk 7 0 false) rfl rfl
  ⟨h.1, h.2.1, h.2.2.1 (GoErr.base "boom") rfl⟩

/-- Claim C4: `Registry.Close` invokes the teardown callback exactly on
the ready records (never handing it an unready record, and never when
the closer is nil), collects one tagged `CloseResourceFailed` error per
failing teardown while continuing past failures, and leaves the
registry in its initial empty state. -/
theorem registry_close_teardown {Ctx C T : Type} (ctx : Ctx) (m : manager Ctx C T) :
    (manager.Close ctx m).2.1.groups = [] ∧
    (m.closer = none → manager.Close ctx m = ([], manager.mk [] m.opener m.closer, [])) ∧
    (∀ cl, m.closer = some cl →
      (manager.Close ctx m).2.2 =
        (m.groups.map (fun g =>
          (readyEntries g.2).map (fun p => Event.closeCall ctx p.2.val))).flatten ∧
      (manager.Close ctx m).1 =
        (m.groups.map (fun g => (readyEntries g.2).filterMap
          (fun p => Option.map (NewErrCloseResourceFailed g.1 p.1)
            (cl ctx p.2.val)))).flatten) := by
  refine ⟨rfl, fun h => ?_, fun cl h => ?_⟩
  · simp [manager.Close, h, closeGroups_nil_closer]
  · simp [manager.Close, h, closeGroups_some_closer]

/-- Witness for C4: closing `mTwo` empties it and tears down exactly
its two ready records. -/
theorem registry_close_teardown_witness :
    (manager.Close () mTwo).2.1.groups = [] ∧
    (manager.Close () mTwo).2.2 = [Event.closeCall () 42, Event.closeCall () 43] ∧
    (manager.Close () mTwo).1 = [] :=
  have h := (registry_close_teardown () mTwo).2.2 okCloser rfl
  ⟨(registry_close_teardown () mTwo).1, h.1.trans (by rfl), h.2.trans (by rfl)⟩

/-- Claim C5: `Unregister` on a ready record invokes the teardown
callback and removes the record with a nil error result no matter what
the teardown returns; on an unready record the teardown callback is
never invoked; on a name never registered in an existing group it fails
with `ResourceNotFound` and changes nothing. -/
theorem unregister_teardown_and_remove {Ctx C T : Type} (ctx : Ctx) (m : manager Ctx C T)
    (gname name : String) (groupMap : List (String × connection C T))
    (hg : lookupKey gname m.groups = some groupMap)
    (hnd : (groupMap.map Prod.fst).Nodup) :
    (lookupKey name groupMap = none →
      ∃ err, group.Unregister ctx m gname name = (some err, m, []) ∧
        errIs err ErrResourceNotFound = true) ∧
    (∀ conn, lookupKey name groupMap = some conn →
      (group.Unregister ctx m gname name).1 = none ∧
      (∃ gm', lookupKey gname (group.Unregister ctx m gname name).2.1.groups = some gm' ∧
        lookupKey name gm' = none) ∧
      (conn.ready = false → (group.Unregister ctx m gname name).2.2 = []) ∧
      (∀ cl, conn.ready = true → m.closer = some cl →
        (group.Unregister ctx m gname name).2.2 = [Event.closeCall ctx conn.val])) := by
  refine ⟨fun hc => ?_, fun conn hc => ?_⟩
  · refine ⟨NewErrResourceNotFound gname name, by simp [group.Unregister, hg, hc], ?_⟩
    simp [NewErrResourceNotFound, ErrResourceNotFound, errIs, errIs_self]
  · have h1 : (group.Unregister ctx m gname name).2.1.groups =
        setKey gname (eraseKey name groupMap) m.groups := by
      simp [group.Unregister, hg, hc]
    refine ⟨by simp [group.Unregister, hg, hc], ?_, fun hr => ?_, fun cl hr hcl => ?_⟩
    · rw [h1]
      exact ⟨eraseKey name groupMap, lookupKey_setKey_self gname _ m.groups,
        lookupKey_eraseKey_self hnd⟩
    · simp [group.Unregister, hg, hc, hr]
    · simp [group.Unregister, hg, hc, hr, hcl]

/-- Witness for C5: unregistering the ready record "r" of `mTwo`
succeeds, removes it and tears it down. -/
theorem unregister_teardown_and_remove_witness :
    (group.Unregister () mTwo "g" "r").1 = none ∧
    (group.Unregister () mTwo "g" "r").2.2 = [Event.closeCall () 42] :=
  have h := (unregister_teardown_and_remove () mTwo "g" "r"
    [("r", connection.mk 7 42 true)] rfl (by decide)).2 (connection.mk 7 42 true) rfl
  ⟨h.1, h.2.2.2 okCloser rfl rfl⟩

/-- Claim C6: `Group.Close` tears down only the ready records of that
group (collecting failures without aborting), removes the group,
leaves every other group's entry untouched, and is a no-op returning an
empty error list when the group is already gone. -/
theorem group_close_scoped {Ctx C T : Type} (ctx : Ctx) (m : manager Ctx C T)
    (gname : String) (hnd : (m.groups.map Prod.fst).Nodup) :
    (lookupKey gname m.groups = none → group.Close ctx m gname = ([], m, [])) ∧
    (∀ groupMap, lookupKey gname m.groups = some groupMap →
      lookupKey gname (group.Close ctx m gname).2.1.groups = none ∧
      (∀ g', g' ≠ gname →
        lookupKey g' (group.Close ctx m gname).2.1.groups = lookupKey g' m.groups) ∧
      (m.closer = none →
        (group.Close ctx m gname).1 = [] ∧ (group.Close ctx m gname).2.2 = []) ∧
      (∀ cl, m.closer = some cl →
        (group.Close ctx m gname).2.2 =
          (readyEntries groupMap).map (fun p => Event.closeCall ctx p.2.val) ∧
        (group.Close ctx m gname).1 =
          (readyEntries groupMap).filterMap
            (fun p => Option.map (NewErrCloseResourceFailed gname p.1) (cl ctx p.2.val)))) := by
  refine ⟨fun hg => by simp [group.Close, hg], fun groupMap hg => ?_⟩
  have h1 : (group.Close ctx m gname).2.1.groups = eraseKey gname m.groups := by
    simp [group.Close, hg]
  refine ⟨?_, fun g' hne => ?_, fun hcl => ?_, fun cl hcl => ?_⟩
  · rw [h1]
    exact lookupKey_eraseKey_self hnd
  · rw [h1]
    exact lookupKey_eraseKey_ne m.groups hne
  · simp [group.Close, hg, hcl, closeConns_nil_closer]
  · simp [group.Close, hg, hcl, closeConns_some_closer]

/-- Witness for C6: closing group "g" of `mTwo` removes it, tears down
its single ready record and leaves sibling group "h" untouched. -/
theorem group_close_scoped_witness :
    lookupKey "g" (group.Close () mTwo "g").2.1.groups = none ∧
    lookupKey "h" (group.Close () mTwo "g").2.1.groups = lookupKey "h" mTwo.groups ∧
    (group.Close () mTwo "g").2.2 = [Event.closeCall () 42] ∧
    (group.Close () mTwo "g").1 = [] :=
  have h := (group_close_scoped () mTwo "g" (by decide)).2
    [("r", connection.mk 7 42 true)] rfl
  have hcl := h.2.2.2 okCloser rfl
  ⟨h.1, h.2.1 "h" (by decide), hcl.1.trans (by rfl), hcl.2.trans (by rfl)⟩

theorem addGroup_of_present {Ctx C T : Type} (m : manager Ctx C T) (name : String)
    (gm : List (String × connection C T)) (h : lookupKey name m.groups = some gm) :
    m.AddGroup name = (true, m) := by
  simp [manager.AddGroup, h]

/-- Claim C7: the first `AddGroup` for a name creates an empty group and
reports "did not exist"; a repeated call reports "existed" and mutates
nothing; afterwards `Registry.Group` succeeds for that name, while for
a name never added it fails with `GroupNotFound`. -/
theorem addGroup_create_and_lookup {Ctx C T : Type} (m : manager Ctx C T)
    (name missing : String) :
    (lookupKey name m.groups = none →
      (m.AddGroup name).1 = false ∧
      lookupKey name (m.AddGroup name).2.groups = some [] ∧
      ((m.AddGroup name).2.AddGroup name).1 = true ∧
      ((m.AddGroup name).2.AddGroup name).2 = (m.AddGroup name).2 ∧
      manager.Group (m.AddGroup name).2 name = Except.ok name) ∧
    (lookupKey missing m.groups = none →
      ∃ err, manager.Group m missing = Except.error err ∧
        errIs err ErrGroupNotFound = true) := by
  refine ⟨fun h => ?_, fun h => ?_⟩
  · have h1 : (m.AddGroup name).2.groups = setKey name [] m.groups := by
      simp [manager.AddGroup, h]
    have h2 : lookupKey name (m.AddGroup name).2.groups = some [] := by
      rw [h1]
      exact lookupKey_setKey_self name _ m.groups
    have h3 := addGroup_of_present (m.AddGroup name).2 name [] h2
    refine ⟨by simp [manager.AddGroup, h], h2, ?_, ?_, ?_⟩
    · rw [h3]
    · rw [h3]
    · simp [manager.Group, h2]
  · refine ⟨NewErrGroupNotFound missing, by simp [manager.Group, h], ?_⟩
    simp [NewErrGroupNotFound, ErrGroupNotFound, errIs, errIs_self]

/-- Witness for C7 on the empty registry. -/
theorem addGroup_create_and_lookup_witness :
    (mEmpty.AddGroup "g").1 = false ∧
    ((mEmpty.AddGroup "g").2.AddGroup "g").1 = true ∧
    manager.Group (mEmpty.AddGroup "g").2 "g" = Except.ok "g" ∧
    (∃ err, manager.Group mEmpty "missing" = Except.error err ∧
      errIs err ErrGroupNotFound = true) :=
  have h := addGroup_create_and_lookup mEmpty "g" "missing"
  have h1 := h.1 rfl
  ⟨h1.1, h1.2.2.1, h1.2.2.2.2, h.2 rfl⟩
